import Mathlib

/-!
Shallow embedding of the sharding, replication and request-region
addressing logic of the HERD-based RDMA key-value benchmark
(src/herd/main.h), together with theorems settling the frozen claims
about its placement and addressing behaviour.

C `int` / `uint32_t` values are modelled as `ℕ`; all the functions under
verification only ever receive non-negative arguments and positive
moduli, which the theorems' hypotheses record.
-/

namespace RdmaBench

/-! ### Constants from src/herd/main.h -/

/-- `#define HERD_MICA_OFFSET 10` (main.h line 13). -/
def HERD_MICA_OFFSET : ℕ := 10

/-- `#define NUM_WORKERS 12` (main.h line 31). -/
def NUM_WORKERS : ℕ := 12

/-- `#define NUM_CLIENTS 70` (main.h line 32). -/
def NUM_CLIENTS : ℕ := 70

/-- `#define WINDOW_SIZE 32` (main.h line 41). -/
def WINDOW_SIZE : ℕ := 32

/-- `#define UNSIG_BATCH 64` (main.h line 45). -/
def UNSIG_BATCH : ℕ := 64

/-- `#define UNSIG_BATCH_ (UNSIG_BATCH - 1)` (main.h line 46). -/
def UNSIG_BATCH_ : ℕ := UNSIG_BATCH - 1

/-- `#define RR_SIZE (16 * 1024 * 1024)` (main.h line 50). -/
def RR_SIZE : ℕ := 16 * 1024 * 1024

/-- `#define HERD_PUT_REQ_SIZE (16 + 1 + 1 + HERD_VALUE_SIZE)` with
`HERD_VALUE_SIZE = 32` (main.h lines 21, 27). -/
def HERD_PUT_REQ_SIZE : ℕ := 16 + 1 + 1 + 32

/-- `#define OFFSET(wn, cn, ws) ((wn * NUM_CLIENTS * WINDOW_SIZE) + (cn * WINDOW_SIZE) + ws)`
(main.h lines 51-52). -/
def OFFSET (wn cn ws : ℕ) : ℕ :=
  wn * NUM_CLIENTS * WINDOW_SIZE + cn * WINDOW_SIZE + ws

/-- `#define HERD_OP_GET (MICA_OP_GET + HERD_MICA_OFFSET)` (main.h line 14).
`MICA_OP_GET` itself is defined in the MICA engine header, which is not part
of the placement header; it is taken as a parameter. -/
def HERD_OP_GET (mica_op_get : ℕ) : ℕ := mica_op_get + HERD_MICA_OFFSET

/-- `#define HERD_OP_PUT (MICA_OP_PUT + HERD_MICA_OFFSET)` (main.h line 15).
`MICA_OP_PUT` is taken as a parameter for the same reason. -/
def HERD_OP_PUT (mica_op_put : ℕ) : ℕ := mica_op_put + HERD_MICA_OFFSET

/-! ### Placement functions from src/herd/main.h lines 74-104 -/

/-- `herd_get_shard_for_key(key_bkt, num_shards) = key_bkt % num_shards`. -/
def herd_get_shard_for_key (key_bkt num_shards : ℕ) : ℕ :=
  key_bkt % num_shards

/-- `herd_get_primary_server_for_shard(shard_id, num_servers) = shard_id % num_servers`. -/
def herd_get_primary_server_for_shard (shard_id num_servers : ℕ) : ℕ :=
  shard_id % num_servers

/-- `herd_get_servers_for_shard` fills `servers[i] = (shard_id + i) % num_servers`
for `i = 0 .. replication_factor - 1`; the output array is modelled as the list
of its cells in index order. -/
def herd_get_servers_for_shard (shard_id num_servers replication_factor : ℕ) :
    List ℕ :=
  (List.range replication_factor).map (fun i => (shard_id + i) % num_servers)

/-- `herd_server_owns_shard` scans `i = 0 .. replication_factor - 1` and returns 1
on the first `i` with `(shard_id + i) % num_servers == server_id`, else 0. -/
def herd_server_owns_shard (server_id shard_id num_servers replication_factor : ℕ) :
    ℕ :=
  if (List.range replication_factor).any
      (fun i => (shard_id + i) % num_servers == server_id) then 1 else 0

/-- `herd_key_belongs_to_server` composes the two: it computes
`shard_id = herd_get_shard_for_key(key_bkt, num_shards)` and returns
`herd_server_owns_shard(server_id, shard_id, num_servers, replication_factor)`. -/
def herd_key_belongs_to_server
    (key_bkt server_id num_servers num_shards replication_factor : ℕ) : ℕ :=
  herd_server_owns_shard server_id (herd_get_shard_for_key key_bkt num_shards)
    num_servers replication_factor

/-- Modelled from the spec: the client request-routing step of `client.c`
(the client source is not among the placement sources; §4.6 of the spec and
CLIENT_ROUTING.md quote it). The client computes the key's shard and its
primary server; when `replication_factor` is 1 it routes to the primary, and
for any other replication factor the current implementation also routes to
the primary. -/
def client_target_server
    (key_bkt num_shards num_servers replication_factor : ℕ) : ℕ :=
  if replication_factor == 1 then
    herd_get_primary_server_for_shard
      (herd_get_shard_for_key key_bkt num_shards) num_servers
  else
    herd_get_primary_server_for_shard
      (herd_get_shard_for_key key_bkt num_shards) num_servers

/-! ### Helper lemmas -/

/-- Membership in the replica list is exactly being one of the ring values. -/
lemma mem_herd_get_servers_for_shard (x shard_id num_servers replication_factor : ℕ) :
    x ∈ herd_get_servers_for_shard shard_id num_servers replication_factor ↔
      ∃ i < replication_factor, (shard_id + i) % num_servers = x := by
  simp [herd_get_servers_for_shard]

/-- On a ring of `num_servers` servers, distinct indices below `num_servers`
shifted by the same amount stay distinct modulo `num_servers`. -/
lemma ring_inj {num_servers shard_id : ℕ}
    {i j : ℕ} (hi : i < num_servers) (hj : j < num_servers)
    (h : (shard_id + i) % num_servers = (shard_id + j) % num_servers) : i = j := by
  have hmod : i % num_servers = j % num_servers :=
    Nat.ModEq.add_left_cancel' shard_id h
  rwa [Nat.mod_eq_of_lt hi, Nat.mod_eq_of_lt hj] at hmod

/-- The replica list has no duplicates as soon as its length is at most the
number of servers. -/
lemma herd_get_servers_for_shard_nodup (shard_id num_servers replication_factor : ℕ)
    (hRN : replication_factor ≤ num_servers) :
    (herd_get_servers_for_shard shard_id num_servers replication_factor).Nodup := by
  refine List.Nodup.map_on ?_ (List.nodup_range replication_factor)
  intro i hi j hj hij
  exact ring_inj (lt_of_lt_of_le (List.mem_range.mp hi) hRN)
    (lt_of_lt_of_le (List.mem_range.mp hj) hRN) hij

/-! ### Claim theorems -/

/-- C1: for every shard id and every configuration with `1 ≤ N` and
`1 ≤ R ≤ N`, the replica list computed by `herd_get_servers_for_shard` has as
members exactly the ring segment `{(sh + i) % N : i < R}`, has length `R` with
pairwise-distinct entries, and at `N = 4, R = 3` the placement table is
`{0 ↦ [0,1,2], 1 ↦ [1,2,3], 2 ↦ [2,3,0], 3 ↦ [3,0,1]}`. -/
theorem herd_get_servers_for_shard_spec
    (sh N R : ℕ) (hN : 1 ≤ N) (hR : 1 ≤ R) (hRN : R ≤ N) :
    (∀ x, x ∈ herd_get_servers_for_shard sh N R ↔ ∃ i < R, x = (sh + i) % N) ∧
    (herd_get_servers_for_shard sh N R).length = R ∧
    (herd_get_servers_for_shard sh N R).Nodup ∧
    (herd_get_servers_for_shard sh N R).toFinset.card = R ∧
    herd_get_servers_for_shard 0 4 3 = [0, 1, 2] ∧
    herd_get_servers_for_shard 1 4 3 = [1, 2, 3] ∧
    herd_get_servers_for_shard 2 4 3 = [2, 3, 0] ∧
    herd_get_servers_for_shard 3 4 3 = [3, 0, 1] := by
  have hlen : (herd_get_servers_for_shard sh N R).length = R := by
    simp [herd_get_servers_for_shard]
  have hnd := herd_get_servers_for_shard_nodup sh N R hRN
  refine ⟨?_, hlen, hnd, ?_, by decide, by decide, by decide, by decide⟩
  · intro x
    rw [mem_herd_get_servers_for_shard]
    constructor
    · rintro ⟨i, hi, hx⟩; exact ⟨i, hi, hx.symm⟩
    · rintro ⟨i, hi, hx⟩; exact ⟨i, hi, hx.symm⟩
  · rw [List.toFinset_card_of_nodup hnd, hlen]

/-- C1 witness: the spec instantiated at `sh = 2, N = 4, R = 3`. -/
theorem herd_get_servers_for_shard_spec_witness :
    (1 : ℕ) ≤ 4 ∧ (1 : ℕ) ≤ 3 ∧ (3 : ℕ) ≤ 4 ∧
    (herd_get_servers_for_shard 2 4 3).length = 3 ∧
    herd_get_servers_for_shard 2 4 3 = [2, 3, 0] := by
  have h := herd_get_servers_for_shard_spec 2 4 3 (by decide) (by decide) (by decide)
  exact ⟨by decide, by decide, by decide, h.2.1, h.2.2.2.2.2.2.1⟩

/-- C2: for every 32-bit key bucket `b` and configuration with `H ≥ 1` and
`N ≥ 1`, the server the client routes the request for `b` to is
`primary_of(shard_of(b))`, where `shard_of(b) = b % H` (as computed by
`herd_get_shard_for_key`) and `primary_of(sh) = sh % N` (as computed by
`herd_get_primary_server_for_shard`), for every replication factor. -/
theorem client_routes_to_primary
    (b H N R : ℕ) (hb : b < 2 ^ 32) (hH : 1 ≤ H) (hN : 1 ≤ N) :
    client_target_server b H N R =
      herd_get_primary_server_for_shard (herd_get_shard_for_key b H) N ∧
    herd_get_shard_for_key b H = b % H ∧
    client_target_server b H N R = (b % H) % N := by
  refine ⟨?_, rfl, ?_⟩ <;>
    simp [client_target_server, herd_get_primary_server_for_shard,
      herd_get_shard_for_key]

/-- C2 witness: routing instantiated at `b = 13, H = 8, N = 4, R = 3`. -/
theorem client_routes_to_primary_witness :
    (13 : ℕ) < 2 ^ 32 ∧ (1 : ℕ) ≤ 8 ∧ (1 : ℕ) ≤ 4 ∧
    client_target_server 13 8 4 3 = (13 % 8) % 4 := by
  have h := client_routes_to_primary 13 8 4 3 (by decide) (by decide) (by decide)
  exact ⟨by decide, by decide, by decide, h.2.2⟩

/-- C3: for every server id, shard id and configuration with `1 ≤ N` and
`1 ≤ R ≤ N`, `herd_server_owns_shard` returns 1 exactly when the server is a
member of the replica list computed by `herd_get_servers_for_shard`. -/
theorem herd_server_owns_shard_iff_mem
    (s sh N R : ℕ) (hN : 1 ≤ N) (hR : 1 ≤ R) (hRN : R ≤ N) :
    herd_server_owns_shard s sh N R = 1 ↔
      s ∈ herd_get_servers_for_shard sh N R := by
  rw [herd_server_owns_shard, mem_herd_get_servers_for_shard]
  split
  case isTrue h =>
    simp only [List.any_eq_true, List.mem_range, beq_iff_eq] at h
    obtain ⟨i, hi, hix⟩ := h
    exact iff_of_true rfl ⟨i, hi, hix⟩
  case isFalse h =>
    simp only [List.any_eq_true, List.mem_range, beq_iff_eq] at h
    refine iff_of_false (by decide) ?_
    rintro ⟨i, hi, hix⟩
    exact h ⟨i, hi, hix⟩

/-- C3 witness: ownership instantiated at `s = 0, sh = 2, N = 4, R = 3`
(server 0 is in the ring segment of shard 2). -/
theorem herd_server_owns_shard_iff_mem_witness :
    (1 : ℕ) ≤ 4 ∧ (1 : ℕ) ≤ 3 ∧ (3 : ℕ) ≤ 4 ∧
    herd_server_owns_shard 0 2 4 3 = 1 := by
  have h := herd_server_owns_shard_iff_mem 0 2 4 3 (by decide) (by decide) (by decide)
  exact ⟨by decide, by decide, by decide, h.mpr (by decide)⟩

/-- C4: for every 32-bit key bucket, server id and configuration with `H ≥ 1`,
`1 ≤ N` and `1 ≤ R ≤ N`, key membership is exactly the composition
`herd_server_owns_shard(s, herd_get_shard_for_key(b, H), N, R)`. -/
theorem herd_key_belongs_to_server_eq_comp
    (b s N H R : ℕ) (hb : b < 2 ^ 32) (hH : 1 ≤ H) (hN : 1 ≤ N)
    (hR : 1 ≤ R) (hRN : R ≤ N) :
    herd_key_belongs_to_server b s N H R =
      herd_server_owns_shard s (herd_get_shard_for_key b H) N R := rfl

/-- C4 witness: the composition instantiated at
`b = 13, s = 1, N = 4, H = 8, R = 3`. -/
theorem herd_key_belongs_to_server_eq_comp_witness :
    (13 : ℕ) < 2 ^ 32 ∧ (1 : ℕ) ≤ 8 ∧ (1 : ℕ) ≤ 4 ∧ (1 : ℕ) ≤ 3 ∧ (3 : ℕ) ≤ 4 ∧
    herd_key_belongs_to_server 13 1 4 8 3 =
      herd_server_owns_shard 1 (herd_get_shard_for_key 13 8) 4 3 :=
  ⟨by decide, by decide, by decide, by decide, by decide,
    herd_key_belongs_to_server_eq_comp 13 1 4 8 3 (by decide) (by decide)
      (by decide) (by decide) (by decide)⟩

/-- C5: for MICA base opcodes satisfying the engine's constraint
`0 < MICA_OP_GET < MICA_OP_PUT < MICA_OP_GET + HERD_MICA_OFFSET` (the real
engine uses 111 and 112 with offset 10), the chain
`0 < MICA_OP_GET < MICA_OP_PUT < HERD_OP_GET < HERD_OP_PUT` holds, both
remote opcodes equal the local ones plus the single offset, a comparison
against `MICA_OP_PUT` separates remote from local, and subtracting the
offset normalizes a remote opcode back to the engine opcode. -/
theorem herd_opcode_chain (g p : ℕ) (hg : 0 < g) (hgp : g < p)
    (hspan : p < g + HERD_MICA_OFFSET) :
    0 < g ∧ g < p ∧ p < HERD_OP_GET g ∧ HERD_OP_GET g < HERD_OP_PUT p ∧
    HERD_OP_GET g = g + HERD_MICA_OFFSET ∧
    HERD_OP_PUT p = p + HERD_MICA_OFFSET ∧
    (¬ p < g ∧ ¬ p < p ∧ p < HERD_OP_GET g ∧ p < HERD_OP_PUT p) ∧
    HERD_OP_GET g - HERD_MICA_OFFSET = g ∧
    HERD_OP_PUT p - HERD_MICA_OFFSET = p := by
  unfold HERD_OP_GET HERD_OP_PUT
  unfold HERD_MICA_OFFSET at hspan ⊢
  omega

/-- C5 witness: the chain at the engine's actual values
`MICA_OP_GET = 111, MICA_OP_PUT = 112`. -/
theorem herd_opcode_chain_witness :
    (0 : ℕ) < 111 ∧ (111 : ℕ) < 112 ∧ (112 : ℕ) < 111 + HERD_MICA_OFFSET ∧
    HERD_OP_GET 111 = 121 ∧ HERD_OP_PUT 112 = 122 := by
  have h := herd_opcode_chain 111 112 (by decide) (by decide) (by decide)
  exact ⟨h.1, h.2.1, by decide, by decide, by decide⟩

/-- C6: for every worker index, client index and window slot index, the slot
index computed by the `OFFSET` macro is
`w * NUM_CLIENTS * WINDOW_SIZE + c * WINDOW_SIZE + s` with `NUM_CLIENTS = 70`
and `WINDOW_SIZE = 32`, and the byte offset of slot `(w, c, s)` is that index
times the slot size, for any slot size. -/
theorem OFFSET_formula (w c s : ℕ) :
    OFFSET w c s = w * 70 * 32 + c * 32 + s ∧
    NUM_CLIENTS = 70 ∧ WINDOW_SIZE = 32 ∧
    ∀ slot_size : ℕ,
      OFFSET w c s * slot_size = (w * 70 * 32 + c * 32 + s) * slot_size :=
  ⟨rfl, rfl, rfl, fun _ => rfl⟩

/-- C7 counterexample: `RR_SIZE` (16 × 1024 × 1024 = 16777216 bytes) is not
`NUM_WORKERS * NUM_CLIENTS * WINDOW_SIZE * slot_size` for any integer slot
size, because 12 × 70 × 32 = 26880 does not divide 2^24. -/
theorem RR_SIZE_not_product :
    ¬ ∃ slot_size : ℕ,
      RR_SIZE = NUM_WORKERS * NUM_CLIENTS * WINDOW_SIZE * slot_size := by
  rintro ⟨sz, h⟩
  unfold RR_SIZE NUM_WORKERS NUM_CLIENTS WINDOW_SIZE at h
  omega

/-- C7 amended: `RR_SIZE` is the fixed constant 16777216 bytes; it is an
over-provisioned upper bound, at least
`NUM_WORKERS * NUM_CLIENTS * WINDOW_SIZE * slot_size` for every slot size up
to 624 bytes, which covers the actual request records
(`HERD_PUT_REQ_SIZE = 50`). -/
theorem RR_SIZE_upper_bound (slot_size : ℕ) (h : slot_size ≤ 624) :
    RR_SIZE = 16777216 ∧
    NUM_WORKERS * NUM_CLIENTS * WINDOW_SIZE * slot_size ≤ RR_SIZE := by
  unfold RR_SIZE NUM_WORKERS NUM_CLIENTS WINDOW_SIZE
  omega

/-- C7 witness: the bound instantiated at the PUT request record size. -/
theorem RR_SIZE_upper_bound_witness :
    HERD_PUT_REQ_SIZE ≤ 624 ∧
    NUM_WORKERS * NUM_CLIENTS * WINDOW_SIZE * HERD_PUT_REQ_SIZE ≤ RR_SIZE :=
  ⟨by decide, (RR_SIZE_upper_bound HERD_PUT_REQ_SIZE (by decide)).2⟩

/-- C8: `UNSIG_BATCH` (= 64) is a power of two, `UNSIG_BATCH_` is
`UNSIG_BATCH - 1`, and for every natural `n` the bitmask test
`n &&& UNSIG_BATCH_ == 0` holds exactly when `n % UNSIG_BATCH == 0`, so the
"every UNSIG_BATCH-th send is signalled" check reduces to a bitmask. -/
theorem unsig_batch_mask_spec :
    (∃ k, UNSIG_BATCH = 2 ^ k) ∧ UNSIG_BATCH_ = UNSIG_BATCH - 1 ∧
    ∀ n : ℕ, (n &&& UNSIG_BATCH_ = 0 ↔ n % UNSIG_BATCH = 0) := by
  refine ⟨⟨6, rfl⟩, rfl, fun n => ?_⟩
  have h : n &&& UNSIG_BATCH_ = n % UNSIG_BATCH := by
    have h6 := Nat.and_pow_two_sub_one_eq_mod n 6
    norm_num at h6
    exact h6
  rw [h]

/-- C9: for every shard and configuration with `1 ≤ N` and `1 ≤ R ≤ N`, the
primary server computed by `herd_get_primary_server_for_shard` always owns the
shard (the `i = 0` term of the replica ring), so a request routed to the
primary reaches a server storing the shard. -/
theorem primary_owns_shard (sh N R : ℕ) (hN : 1 ≤ N) (hR : 1 ≤ R)
    (hRN : R ≤ N) :
    herd_server_owns_shard (herd_get_primary_server_for_shard sh N) sh N R
      = 1 := by
  unfold herd_server_owns_shard herd_get_primary_server_for_shard
  rw [if_pos]
  simp only [List.any_eq_true, List.mem_range, beq_iff_eq]
  exact ⟨0, hR, by simp⟩

/-- C9 witness: the primary of shard 2 owns shard 2 at `N = 4, R = 3`. -/
theorem primary_owns_shard_witness :
    (1 : ℕ) ≤ 4 ∧ (1 : ℕ) ≤ 3 ∧ (3 : ℕ) ≤ 4 ∧
    herd_server_owns_shard (herd_get_primary_server_for_shard 2 4) 2 4 3 = 1 :=
  ⟨by decide, by decide, by decide,
    primary_owns_shard 2 4 3 (by decide) (by decide) (by decide)⟩

/-- C10: `OFFSET` is injective on the bounded domain
`[0, NUM_WORKERS) × [0, NUM_CLIENTS) × [0, WINDOW_SIZE)`: no two distinct
(worker, client, window-slot) positions share a request-region slot index. -/
theorem OFFSET_injective (w c s w' c' s' : ℕ)
    (hw : w < NUM_WORKERS) (hc : c < NUM_CLIENTS) (hs : s < WINDOW_SIZE)
    (hw' : w' < NUM_WORKERS) (hc' : c' < NUM_CLIENTS) (hs' : s' < WINDOW_SIZE)
    (h : OFFSET w c s = OFFSET w' c' s') : w = w' ∧ c = c' ∧ s = s' := by
  unfold OFFSET at h
  unfold NUM_WORKERS at hw hw'
  unfold NUM_CLIENTS at hc hc' h
  unfold WINDOW_SIZE at hs hs' h
  omega

/-- C10 witness: injectivity instantiated at the coinciding triples
`(3, 5, 7)` and `(3, 5, 7)`. -/
theorem OFFSET_injective_witness :
    (3 : ℕ) < NUM_WORKERS ∧ (5 : ℕ) < NUM_CLIENTS ∧ (7 : ℕ) < WINDOW_SIZE ∧
    ((3 : ℕ) = 3 ∧ (5 : ℕ) = 5 ∧ (7 : ℕ) = 7) :=
  ⟨by decide, by decide, by decide,
    OFFSET_injective 3 5 7 3 5 7 (by decide) (by decide) (by decide)
      (by decide) (by decide) (by decide) rfl⟩

end RdmaBench
